import Mathlib

/-!
Verification of the `offline-function-calling/sdk` examples against their
natural-language specification.  The development shallowly embeds
`examples/hello-world.py`: the `chat` helper, the conversation transcript,
the fenced-code-block regular expression (compiled with `re.VERBOSE` and
`re.DOTALL` and driven by `finditer`), the sandbox execution loop, and the
observable control flow of `main`.
-/

namespace HelloWorld

/-! ### Generic scanning helpers

Python's `re` engine is a backtracking matcher.  The specific pattern in
`hello-world.py` only needs: maximal character runs (greedy quantifiers over
single-character classes are deterministic here, because in every position the
continuation fails on a leftover character of the same class), ordered choice
(`pick`), and explicit candidate enumeration for the only genuinely
backtracking part, `\n+ (?P<code_content>.*?) \n+ (?P=code_start)`.
-/

/-- Length of the maximal prefix of `l` whose characters satisfy `p`. -/
def runP (p : Char → Bool) : List Char → Nat
  | [] => 0
  | c :: cs => if p c then runP p cs + 1 else 0

/-- Length of the maximal prefix of `l` consisting of the character `c`. -/
def runC (c : Char) (l : List Char) : Nat := runP (fun x => x == c) l

/-- Length of the maximal prefix of blanks and tabs (the class `[ \t]`). -/
def wsRun (l : List Char) : Nat := runP (fun c => c == ' ' || c == '\t') l

/-- The class `[\w\-\.]` of the regex, restricted to ASCII word characters
(the model never emits non-ASCII tags in these examples). -/
def isTagChar (c : Char) : Bool := c.isAlphanum || c == '_' || c == '-' || c == '.'

/-- `begins p l` holds when `p` is a prefix of `l` (the backreference test). -/
def begins : List Char → List Char → Bool
  | [], _ => true
  | _ :: _, [] => false
  | a :: as, b :: bs => a == b && begins as bs

/-- Ordered choice: the first candidate on which `f` succeeds, in list order.
This is the exploration order of the backtracking engine. -/
def pick (f : α → Option β) : List α → Option β
  | [] => none
  | a :: as =>
    match f a with
    | some b => some b
    | none => pick f as

/-- `[n, n-1, ..., 1]`: the candidate order of a greedy `+` quantifier. -/
def descRange (n : Nat) : List Nat := (List.range n).map (fun k => n - k)

/-! ### Model of `find_code_blocks` / `code_block_regex` (hello-world.py, lines 50-51)

The pattern, compiled with `re.VERBOSE | re.DOTALL` and applied by
`finditer`, is

  `(?:\n+|\A)?(?P<code_all>(?P<code_start>[ ]{0,3}` three-or-more-backticks `)`
  `[ \t]*(?:(?:(?P<code_class>[\w\-\.]+)(?:[ \t]*\x7b(?P<code_def_a>[^\x7d]+)\x7d)?)`
  `|(?:[ \t]*\x7b(?P<code_def_b>[^\x7d]+)\x7d))?`
  `\n+(?P<code_content>.*?)\n+(?<!backtick)(?P=code_start)(?!backtick))(?:\n|\Z)`

Greedy single-character-class quantifiers whose continuation always fails on
a leftover character of the same class are deterministic, so the leading
`(?:\n+|\A)?`, `[ ]{0,3}`, the backtick run, the `[ \t]*` runs, the tag run
`[\w\-\.]+` and the brace interior `[^\x7d]+` are all modelled as maximal
runs; ordered backtracking is kept for `\n+ .*? \n+ backreference`, exactly
as the engine explores it (first `\n+` greedy, `.*?` lazy, second `\n+`
greedy).  The lookbehind `(?<!` backtick `)` is always satisfied because the
backreference is preceded by `\n+`; it is noted here rather than coded.
-/

/-- The optional `(?:[ \t]*\x7b(?P<code_def>[^\x7d]+)\x7d)` part: on success,
the number of characters consumed.  The brace interior is the maximal run of
non-`\x7d` characters (newlines included, as under `re.DOTALL`); a strictly
shorter interior would face a non-`\x7d` character where `\x7d` is required,
so the greedy quantifier is deterministic. -/
def parseBrace (t : List Char) : Option Nat :=
  let w := wsRun t
  match List.drop w t with
  | '\x7b' :: u =>
    let m := runP (fun c => c != '\x7d') u
    if m = 0 then none
    else
      match List.drop m u with
      | '\x7d' :: _ => some (w + 1 + m + 1)
      | _ => none
  | _ => none

/-- The `[ \t]*(?:(?:tag(?:braces)?)|(?:braces))?` segment after the opening
fence: the captured `code_class` (if the tag alternative matched) and the
number of characters consumed.  All alternatives the engine would try later
leave the continuation `\n+` facing a blank, tab, tag character, `\x7b` or
backtick, so the first viable alternative is the only viable one. -/
def parseInfo (t : List Char) : Option String × Nat :=
  let w := wsRun t
  match List.drop w t with
  | [] => (none, w)
  | c :: _ =>
    if isTagChar c then
      let u := List.drop w t
      let tg := runP isTagChar u
      let tagStr := String.mk (List.take tg u)
      match parseBrace (List.drop tg u) with
      | some bl => (some tagStr, w + tg + bl)
      | none => (some tagStr, w + tg)
    else if c == '\x7b' then
      match parseBrace (List.drop w t) with
      | some bl => (none, w + bl)
      | none => (none, w)
    else (none, w)

/-- One match of the code-block regex, as `main` consumes it: the
`code_class` capture (`none` when the group did not participate, which
Python reports as `None`) and the `code_content` capture. -/
structure Block where
  cls : Option String
  content : String
deriving DecidableEq, Repr

/-- Result of matching `\n+ .*? \n+ (?P=code_start) (?!backtick) (?:\n|\Z)`:
the two newline-run lengths, the `code_content` capture, and the total number
of characters consumed. -/
structure TailRes where
  n1 : Nat
  content : List Char
  n2 : Nat
  used : Nat
deriving DecidableEq, Repr

/-- Try one backtracking candidate `(n1, c, n2)` for the tail at `t`:
`n1` newlines, `c` content characters, `n2` newlines, then the
backreference `fence`, the `(?!backtick)` lookahead, and `(?:\n|\Z)`. -/
def checkCand (t fence : List Char) (n1 c n2 : Nat) : Option TailRes :=
  let rest := List.drop (n1 + c + n2) t
  if begins fence rest then
    match List.drop fence.length rest with
    | [] => some ⟨n1, List.take c (List.drop n1 t), n2, n1 + c + n2 + fence.length⟩
    | ch :: _ =>
      if ch == '\x60' then none
      else if ch == '\n' then
        some ⟨n1, List.take c (List.drop n1 t), n2, n1 + c + n2 + fence.length + 1⟩
      else none
  else none

/-- The tail search in the engine's exploration order: first `\n+` greedy
(descending), `.*?` lazy (ascending), second `\n+` greedy (descending). -/
def tailSearch (t fence : List Char) : Option TailRes :=
  pick
    (fun n1 =>
      pick
        (fun c =>
          pick (fun n2 => checkCand t fence n1 c n2)
            (descRange (runC '\n' (List.drop (n1 + c) t))))
        (List.range (t.length + 1)))
    (descRange (runC '\n' t))

/-- A whole regex match: the captures `main` reads, and the end position of
the match in the subject (where `finditer` resumes). -/
structure MatchRes where
  block : Block
  stop : Nat
deriving DecidableEq, Repr

/-- Attempt to match the code-block regex at position `i` of `s`, as the
engine does when `finditer` probes position `i`.  The optional `(?:\n+|\A)?`
prefix consumes the maximal newline run (with fewer, the fence would start
on a newline and fail); `[ ]{0,3}` must exhaust the blank run, and the
backtick run and info segment are deterministic as described above. -/
def matchAt (s : List Char) (i : Nat) : Option MatchRes :=
  let t0 := List.drop i s
  let nPre := runC '\n' t0
  let t1 := List.drop nPre t0
  let nSp := runC ' ' t1
  if nSp > 3 then none
  else
    let t2 := List.drop nSp t1
    let nTicks := runC '\x60' t2
    if nTicks < 3 then none
    else
      let fence := List.replicate nSp ' ' ++ List.replicate nTicks '\x60'
      let t3 := List.drop nTicks t2
      let info := parseInfo t3
      let t4 := List.drop info.2 t3
      match tailSearch t4 fence with
      | none => none
      | some tr =>
        some ⟨⟨info.1, String.mk tr.content⟩,
              i + nPre + nSp + nTicks + info.2 + tr.used⟩

/-- `finditer`: probe positions left to right, emit non-overlapping matches,
resume at each match's end.  `fuel` dominates the number of probes; every
probe advances the position by at least one. -/
def scanAux (s : List Char) : Nat → Nat → List Block
  | 0, _ => []
  | fuel + 1, i =>
    if i ≤ s.length then
      match matchAt s i with
      | some m => m.block :: scanAux s fuel (max m.stop (i + 1))
      | none => scanAux s fuel (i + 1)
    else []

/-- All matches of `code_block_regex` in `s`, in order (hello-world.py,
line 54: `code_block_regex.finditer(response)`). -/
def findCodeBlocks (s : String) : List Block :=
  scanAux s.data (s.data.length + 1) 0

/-- The `function_calls` list built by the loop at hello-world.py lines
53-56: the `code_content` of every match whose `code_class` capture equals
`"python"` (`match.group("code_class") == "python"`; an absent capture is
`None`, which is not equal to `"python"`). -/
def functionCalls (s : String) : List String :=
  List.foldl
    (fun acc b => if b.cls == some "python" then acc ++ [b.content] else acc)
    [] (findCodeBlocks s)

/-! ### Data model: the conversation transcript and the chat call

`hello-world.py` lines 8-29 (`chat`) and 38-42 (the initial transcript).
-/

/-- One record of the conversation transcript: a `role` and textual
`content`, exactly the dictionaries built in the script. -/
structure Message where
  role : String
  content : String
deriving DecidableEq, Repr

/-- The `options` object of the request payload (lines 14-17). `top_p` is
the JSON literal `0.95`, represented exactly as a rational. -/
structure ChatOptions where
  num_ctx : Nat
  top_p : ℚ
deriving DecidableEq, Repr

/-- The JSON payload of a chat request (lines 10-18): exactly the four
fields `model`, `messages`, `stream` and `options`. -/
structure ChatPayload where
  model : String
  messages : List Message
  stream : Bool
  options : ChatOptions
deriving DecidableEq, Repr

/-- The HTTP request issued by `chat` (line 20:
`session.post(endpoint, json=payload)`). -/
structure HttpRequest where
  method : String
  url : String
  json : ChatPayload
deriving DecidableEq, Repr

/-- The JSON body of a chat response: a nested assistant message, of which
`chat` reads `response["message"]["content"]` (line 24). -/
structure ChatBody where
  message : Message
deriving DecidableEq, Repr

/-- An HTTP response as `chat` observes it: a status code, checked by
`raise_for_status()`, and the JSON body. -/
structure HttpResponse where
  status : Nat
  body : ChatBody
deriving DecidableEq, Repr

/-- Everything observable about one `chat` invocation: the request it
posted, the `messages` list after the call, and either the returned content
or the status of the `ClientResponseError` raised by
`raise_for_status()`. -/
structure ChatOutcome where
  request : HttpRequest
  messages : List Message
  result : Except Nat String
deriving Repr

/-- `chat` (lines 8-29).  The payload carries the model name, the whole
`messages` list, `stream = False` and the sampling options; the request is a
POST to `server + "/api/chat"`.  `raise_for_status()` raises for any status
of 400 or above, before the body is read and before anything is appended;
otherwise the assistant message is appended to `messages` and its content
returned. -/
def chat (messages : List Message) (model server : String)
    (resp : HttpResponse) : ChatOutcome :=
  let endpoint := server ++ "/api/chat"
  let payload : ChatPayload := ⟨model, messages, false, ⟨8192, (95 : ℚ) / 100⟩⟩
  let request : HttpRequest := ⟨"POST", endpoint, payload⟩
  if 400 ≤ resp.status then
    ⟨request, messages, Except.error resp.status⟩
  else
    ⟨request, messages ++ [⟨"assistant", resp.body.message.content⟩],
      Except.ok resp.body.message.content⟩

/-! ### The `main` pipeline (hello-world.py lines 31-84) -/

/-- Line 32. -/
def model : String := "gemma3:27b"

/-- The default `server` argument of `chat` (line 8), used by both calls. -/
def server : String := "http://localhost:11434"

/-- Line 34, verbatim. -/
def instruction : String :=
  "You are a helpful assistant to me, the user. You have access to programmatic functions that you can call to better assist me. You are encouraged to call functions to help the user. You can only use the functions given to you. Do not make up your own functions.\n\nYou can call these functions by producing a python-style function call in plain text only, passing all the parameters as named arguments. For example, to call a function named `do_something`, with the parameter `wait_for_it` set to `true` you must produce the following output:\n\n```python\ndo_something(wait_for_it=True)\n```\n\nThe output of the function will be returned in the next message from the user. You must use the output of the function to generate a helpful natural language response for the user. Your response must satisfy the user\x27s original question."

/-- Line 35, verbatim. -/
def discovery : String :=
  "When I ask for the current weather for a particular place, you can call the `fetch_weather` function and pass the `place` parameter (a string) with the place I mention. The place can be the name of a city or famous landmark, or an airport code. The function will produce a JSON object containing information about the weather condition, temperature and winds for the given place."

/-- Line 36, verbatim. -/
def task : String := "What is the weather in Pune right now?"

/-- Lines 38-42: the initial transcript. -/
def messages : List Message :=
  [⟨"user", instruction⟩, ⟨"user", discovery⟩, ⟨"user", task⟩]

/-- Line 59, verbatim: the helper code loaded into the sandbox. -/
def function_code : String :=
  "import requests\ndef fetch_weather(place: str) -> dict:\n    url = f\"https://wttr.in/\x7bplace\x7d?format=j1\"\n    response = requests.get(url)\n    response.raise_for_status()\n    data = response.json()\n    data = data[\x27current_condition\x27][0]\n    return \x7b\n        \"units\": \"metric\",\n        \"condition\": data[\x27weatherDesc\x27][0][\x27value\x27],\n        \"temperature\": int(data[\x27temp_C\x27]),\n        \"feels_like\": int(data[\x27FeelsLikeC\x27]),\n        \"wind_speed\": int(data[\x27windspeedKmph\x27])\n    \x7d"

/-- The environment `main` runs against: the two chat responses (status and
body) and, for the `k`-th `sandbox.run` call (`k = 0` is the `function_code`
definition run, `k = j+1` the run of the `j`-th extracted call), the pair
`(output, errors)` the runner hands back. -/
structure Env where
  status1 : Nat
  body1 : ChatBody
  runResults : Nat → String × String
  status2 : Nat
  body2 : ChatBody

/-- The observable events of a run of `main`, in program order. -/
inductive Event where
  | chatRequest (request : HttpRequest)
  | chatResponse (content : String)
  | chatError (status : Nat)
  | sandboxStart
  | sandboxRun (code output error : String)
  | sandboxStop
deriving DecidableEq, Repr

/-- The `for call in function_calls` loop (lines 67-74), starting at run
index `k`: the sandbox events, and the `responses` list, collecting
`errors if errors else output` per call. -/
def runCalls (env : Env) : List String → Nat → List Event × List String
  | [], _ => ([], [])
  | call :: rest, k =>
    let out := (env.runResults k).1
    let err := (env.runResults k).2
    let next := runCalls env rest (k + 1)
    (Event.sandboxRun call out err :: next.1,
     (if err ≠ "" then err else out) :: next.2)

/-- `main` (lines 31-84): the event trace and the final `messages` list.
An HTTP error status makes `chat` raise; the exception is unhandled, so the
run ends there (no sandbox activity after a failed first chat, no
`sandbox.stop()` after a failed second chat). -/
def mainResult (env : Env) : List Event × List Message :=
  let o1 := chat messages model server ⟨env.status1, env.body1⟩
  match o1.result with
  | Except.error st => ([Event.chatRequest o1.request, Event.chatError st], o1.messages)
  | Except.ok response =>
    let function_calls := functionCalls response
    let def_run := env.runResults 0
    let loop := runCalls env function_calls 1
    let outputs := String.intercalate "\n\n" loop.2
    let msgsA := o1.messages ++ [⟨"user", outputs⟩]
    let o2 := chat msgsA model server ⟨env.status2, env.body2⟩
    match o2.result with
    | Except.error st =>
      ([Event.chatRequest o1.request, Event.chatResponse response, Event.sandboxStart,
        Event.sandboxRun function_code def_run.1 def_run.2]
        ++ loop.1 ++ [Event.chatRequest o2.request, Event.chatError st],
       o2.messages)
    | Except.ok response2 =>
      ([Event.chatRequest o1.request, Event.chatResponse response, Event.sandboxStart,
        Event.sandboxRun function_code def_run.1 def_run.2]
        ++ loop.1
        ++ [Event.chatRequest o2.request, Event.chatResponse response2, Event.sandboxStop],
       o2.messages)

/-- Content of the first model response. -/
def response1 (env : Env) : String := env.body1.message.content

/-- Content of the second model response. -/
def response2 (env : Env) : String := env.body2.message.content

/-- What the loop collects for the `k`-th sandbox run:
`errors if errors else output` (line 74). -/
def collected (env : Env) (k : Nat) : String :=
  if (env.runResults k).2 ≠ "" then (env.runResults k).2 else (env.runResults k).1

/-- `outputs = "\n\n".join(responses)` (line 76). -/
def joinedOutputs (env : Env) : String :=
  String.intercalate "\n\n" (runCalls env (functionCalls (response1 env)) 1).2

/-- Index-aware map, used to state closed forms of the run loop. -/
def mapIdxFrom (f : Nat → String → α) : Nat → List String → List α
  | _, [] => []
  | k, c :: cs => f k c :: mapIdxFrom f (k + 1) cs

/-- The transcript carried by each chat request of a trace, in order. -/
def requestTranscripts (t : List Event) : List (List Message) :=
  t.filterMap fun e =>
    match e with
    | Event.chatRequest r => some r.json.messages
    | _ => none

/-- The code strings executed in the sandbox during a trace, in order. -/
def runCodes (t : List Event) : List String :=
  t.filterMap fun e =>
    match e with
    | Event.sandboxRun c _ _ => some c
    | _ => none

/-- Modelled from the spec claim wording (for comparison with the source
regex, not from the source): a fenced code block with the given tag and
body is present in `s` — an opening run of three or more backticks, a
language tag after the opening fence, the body between the fences, closed
by the same run. -/
def specFencedBlockPresent (s tag body : String) : Prop :=
  ∃ (pre post : String) (n : Nat), 3 ≤ n ∧
    s = pre ++ String.mk (List.replicate n '\x60') ++ tag ++ "\n"
      ++ body ++ "\n" ++ String.mk (List.replicate n '\x60') ++ post

/-- A response string containing a fenced block whose closing fence is
followed by further text on the same line. -/
def cex2 : String := "```python\nx\n``` y"

/-- A run in which the first model response contains no fenced code block
at all, so the collected-outputs string is empty. -/
def env6 : Env :=
  ⟨200, ⟨⟨"assistant", "hello"⟩⟩, fun _ => ("", ""), 200, ⟨⟨"assistant", "ok"⟩⟩⟩

/-- A successful run with one extracted call producing plain output. -/
def envOk : Env :=
  ⟨200, ⟨⟨"assistant", "```python\nf(1)\n```"⟩⟩, fun _ => ("out", ""),
   200, ⟨⟨"assistant", "done"⟩⟩⟩

/-! ### Sanity checks of the regex model

Each of these reproduces the behaviour of `code_block_regex.finditer` as
observed on the CPython `re` engine (groups `code_class`/`code_content`).
-/

example : findCodeBlocks "```python\nprint(1)\n```" = [⟨some "python", "print(1)"⟩] := by decide

example : findCodeBlocks "```python\nx\n``` y" = [] := by decide

example : findCodeBlocks "``` python\nx\n```" = [⟨some "python", "x"⟩] := by decide

example : findCodeBlocks "```python \nx\n```" = [] := by decide

example : findCodeBlocks "```python\n\n```" = [⟨some "python", ""⟩] := by decide

example : findCodeBlocks "```\nx\n```" = [⟨none, "x"⟩] := by decide

example : findCodeBlocks "```py\n\nA\n\n```" = [⟨some "py", "A"⟩] := by decide

example :
    findCodeBlocks "```python\nA\n```\n```python\nB\n```" =
      [⟨some "python", "A"⟩, ⟨some "python", "B"⟩] := by decide

example : functionCalls "```PYTHON\nx\n```" = [] := by decide

example : functionCalls "x```python\ng()\n```" = ["g()"] := by decide

/-! ### Helper lemmas about `chat` and the run loop -/

/-- On a success status, `chat` posts the fixed payload, appends exactly the
assistant message, and returns its content. -/
theorem chat_ok (msgs : List Message) (mdl srv : String) (resp : HttpResponse)
    (h : resp.status < 400) :
    chat msgs mdl srv resp =
      ⟨⟨"POST", srv ++ "/api/chat", ⟨mdl, msgs, false, ⟨8192, (95 : ℚ) / 100⟩⟩⟩,
       msgs ++ [⟨"assistant", resp.body.message.content⟩],
       Except.ok resp.body.message.content⟩ := by
  simp [chat, Nat.not_le.mpr h]

/-- On an error status, `chat` leaves the transcript alone and raises. -/
theorem chat_err (msgs : List Message) (mdl srv : String) (resp : HttpResponse)
    (h : 400 ≤ resp.status) :
    chat msgs mdl srv resp =
      ⟨⟨"POST", srv ++ "/api/chat", ⟨mdl, msgs, false, ⟨8192, (95 : ℚ) / 100⟩⟩⟩,
       msgs, Except.error resp.status⟩ := by
  simp [chat, h]

/-- Closed form of the sandbox loop: one run event per extracted call, in
order, the `j`-th call paired with run result `k + j`; the collected string
per call is the runner's `errors` when non-empty, else its `output`. -/
theorem runCalls_eq (env : Env) (calls : List String) (k : Nat) :
    runCalls env calls k =
      (mapIdxFrom (fun j c => Event.sandboxRun c (env.runResults j).1 (env.runResults j).2) k calls,
       mapIdxFrom (fun j _ => collected env j) k calls) := by
  induction calls generalizing k with
  | nil => rfl
  | cons c cs ih => simp [runCalls, mapIdxFrom, ih, collected]

/-- Closed form of a fully successful run of `main`. -/
theorem mainResult_ok (env : Env) (h1 : env.status1 < 400) (h2 : env.status2 < 400) :
    mainResult env =
      ([Event.chatRequest ⟨"POST", server ++ "/api/chat",
          ⟨model, messages, false, ⟨8192, (95 : ℚ) / 100⟩⟩⟩,
        Event.chatResponse (response1 env), Event.sandboxStart,
        Event.sandboxRun function_code (env.runResults 0).1 (env.runResults 0).2]
        ++ (runCalls env (functionCalls (response1 env)) 1).1
        ++ [Event.chatRequest ⟨"POST", server ++ "/api/chat",
              ⟨model, messages ++ [⟨"assistant", response1 env⟩, ⟨"user", joinedOutputs env⟩],
               false, ⟨8192, (95 : ℚ) / 100⟩⟩⟩,
            Event.chatResponse (response2 env), Event.sandboxStop],
       messages ++ [⟨"assistant", response1 env⟩, ⟨"user", joinedOutputs env⟩,
         ⟨"assistant", response2 env⟩]) := by
  have e1 := chat_ok messages model server ⟨env.status1, env.body1⟩ h1
  have e2 := chat_ok
    (messages ++ [⟨"assistant", response1 env⟩, ⟨"user", joinedOutputs env⟩])
    model server ⟨env.status2, env.body2⟩ h2
  simp only [mainResult, e1, joinedOutputs, response1, response2] at *
  simp only [List.append_assoc, List.cons_append, List.nil_append] at *
  simp [e2]

/-- Closed form of a run whose first chat request fails. -/
theorem mainResult_err1 (env : Env) (h1 : 400 ≤ env.status1) :
    mainResult env =
      ([Event.chatRequest ⟨"POST", server ++ "/api/chat",
          ⟨model, messages, false, ⟨8192, (95 : ℚ) / 100⟩⟩⟩,
        Event.chatError env.status1], messages) := by
  have e1 := chat_err messages model server ⟨env.status1, env.body1⟩ h1
  simp [mainResult, e1]

/-- Closed form of a run whose second chat request fails: the sandbox has
already run every extracted call, and the outputs message is already part of
the transcript. -/
theorem mainResult_err2 (env : Env) (h1 : env.status1 < 400) (h2 : 400 ≤ env.status2) :
    mainResult env =
      ([Event.chatRequest ⟨"POST", server ++ "/api/chat",
          ⟨model, messages, false, ⟨8192, (95 : ℚ) / 100⟩⟩⟩,
        Event.chatResponse (response1 env), Event.sandboxStart,
        Event.sandboxRun function_code (env.runResults 0).1 (env.runResults 0).2]
        ++ (runCalls env (functionCalls (response1 env)) 1).1
        ++ [Event.chatRequest ⟨"POST", server ++ "/api/chat",
              ⟨model, messages ++ [⟨"assistant", response1 env⟩, ⟨"user", joinedOutputs env⟩],
               false, ⟨8192, (95 : ℚ) / 100⟩⟩⟩,
            Event.chatError env.status2],
       messages ++ [⟨"assistant", response1 env⟩, ⟨"user", joinedOutputs env⟩]) := by
  have e1 := chat_ok messages model server ⟨env.status1, env.body1⟩ h1
  have e2 := chat_err
    (messages ++ [⟨"assistant", response1 env⟩, ⟨"user", joinedOutputs env⟩])
    model server ⟨env.status2, env.body2⟩ h2
  simp only [mainResult, e1, joinedOutputs, response1, response2] at *
  simp only [List.append_assoc, List.cons_append, List.nil_append] at *
  simp [e2]

/-! ### Claim C1: the observable flow is a linear pipeline -/

/-- Claim C1: on a successful run, the trace of `main` is exactly — in this
order — the first chat request with the initial transcript, its response,
the sandbox start and the `function_code` definition run, one sandbox run
per extracted fenced block in extraction order (the `j`-th extracted call is
the `j+1`-st sandbox run), and only then the single follow-up chat request
carrying the collected outputs, its response, and the sandbox stop.  In
particular no block runs before the first chat response and the follow-up
request comes after every block has run. -/
theorem main_pipeline_trace (env : Env) (h1 : env.status1 < 400) (h2 : env.status2 < 400) :
    (mainResult env).1 =
      [Event.chatRequest ⟨"POST", server ++ "/api/chat",
          ⟨model, messages, false, ⟨8192, (95 : ℚ) / 100⟩⟩⟩,
       Event.chatResponse (response1 env), Event.sandboxStart,
       Event.sandboxRun function_code (env.runResults 0).1 (env.runResults 0).2]
      ++ mapIdxFrom
           (fun j c => Event.sandboxRun c (env.runResults j).1 (env.runResults j).2)
           1 (functionCalls (response1 env))
      ++ [Event.chatRequest ⟨"POST", server ++ "/api/chat",
            ⟨model, messages ++ [⟨"assistant", response1 env⟩, ⟨"user", joinedOutputs env⟩],
             false, ⟨8192, (95 : ℚ) / 100⟩⟩⟩,
          Event.chatResponse (response2 env), Event.sandboxStop] := by
  rw [mainResult_ok env h1 h2, runCalls_eq]

/-- Witness for C1 at the concrete environment `envOk`. -/
theorem main_pipeline_trace_witness :
    envOk.status1 < 400 ∧ envOk.status2 < 400 ∧
    (mainResult envOk).1 =
      [Event.chatRequest ⟨"POST", server ++ "/api/chat",
          ⟨model, messages, false, ⟨8192, (95 : ℚ) / 100⟩⟩⟩,
       Event.chatResponse (response1 envOk), Event.sandboxStart,
       Event.sandboxRun function_code (envOk.runResults 0).1 (envOk.runResults 0).2]
      ++ mapIdxFrom
           (fun j c => Event.sandboxRun c (envOk.runResults j).1 (envOk.runResults j).2)
           1 (functionCalls (response1 envOk))
      ++ [Event.chatRequest ⟨"POST", server ++ "/api/chat",
            ⟨model, messages ++ [⟨"assistant", response1 envOk⟩, ⟨"user", joinedOutputs envOk⟩],
             false, ⟨8192, (95 : ℚ) / 100⟩⟩⟩,
          Event.chatResponse (response2 envOk), Event.sandboxStop] :=
  ⟨by decide, by decide, main_pipeline_trace envOk (by decide) (by decide)⟩

/-! ### Claim C3: stderr-or-stdout collection into a single user message -/

/-- Claim C3: on a successful run, what the transcript receives for the
sandbox runs is a single user message whose content joins, in run order,
each run's captured `errors` when non-empty and its `output` otherwise. -/
theorem stderr_collected (env : Env) (h1 : env.status1 < 400) (h2 : env.status2 < 400) :
    (mainResult env).2 =
      messages
        ++ [⟨"assistant", response1 env⟩,
            ⟨"user", String.intercalate "\n\n"
              (mapIdxFrom
                (fun j _ =>
                  if (env.runResults j).2 ≠ "" then (env.runResults j).2
                  else (env.runResults j).1)
                1 (functionCalls (response1 env)))⟩,
            ⟨"assistant", response2 env⟩] := by
  rw [mainResult_ok env h1 h2]
  simp only [joinedOutputs, runCalls_eq, collected]

/-- Witness for C3 at the concrete environment `envOk`. -/
theorem stderr_collected_witness :
    envOk.status1 < 400 ∧ envOk.status2 < 400 ∧
    (mainResult envOk).2 =
      messages
        ++ [⟨"assistant", response1 envOk⟩,
            ⟨"user", String.intercalate "\n\n"
              (mapIdxFrom
                (fun j _ =>
                  if (envOk.runResults j).2 ≠ "" then (envOk.runResults j).2
                  else (envOk.runResults j).1)
                1 (functionCalls (response1 envOk)))⟩,
            ⟨"assistant", response2 envOk⟩] :=
  ⟨by decide, by decide, stderr_collected envOk (by decide) (by decide)⟩

/-! ### Claim C4: HTTP error statuses raise, untouched transcript -/

/-- Claim C4: when the HTTP response carries an error status (400 or above),
`chat` raises that status to its caller before reading the body — the
outcome does not depend on the body at all — and the `messages` list is
unchanged, with no assistant message appended; `chat` installs no handler or
retry (the single attempt is all there is). -/
theorem chat_error_unhandled (msgs : List Message) (mdl srv : String) (st : Nat)
    (b b' : ChatBody) (h : 400 ≤ st) :
    (chat msgs mdl srv ⟨st, b⟩).result = Except.error st ∧
    (chat msgs mdl srv ⟨st, b⟩).messages = msgs ∧
    chat msgs mdl srv ⟨st, b⟩ = chat msgs mdl srv ⟨st, b'⟩ := by
  refine ⟨?_, ?_, ?_⟩ <;> simp [chat, h]

/-- Witness for C4 at a concrete 404 response with two different bodies. -/
theorem chat_error_unhandled_witness :
    400 ≤ 404 ∧
    ((chat messages model server ⟨404, ⟨⟨"assistant", "a"⟩⟩⟩).result = Except.error 404 ∧
     (chat messages model server ⟨404, ⟨⟨"assistant", "a"⟩⟩⟩).messages = messages ∧
     chat messages model server ⟨404, ⟨⟨"assistant", "a"⟩⟩⟩ =
       chat messages model server ⟨404, ⟨⟨"assistant", "b"⟩⟩⟩) :=
  ⟨by decide,
   chat_error_unhandled messages model server 404 ⟨⟨"assistant", "a"⟩⟩ ⟨⟨"assistant", "b"⟩⟩
     (by decide)⟩

/-! ### Claim C8: shape of every chat request and of the returned content -/

/-- Claim C8: every chat request is an HTTP POST to `server + "/api/chat"`
whose JSON body holds exactly the model name, the full message history, the
non-streaming flag and the sampling options (`num_ctx = 8192`,
`top_p = 0.95`); on a success status, `chat` returns exactly the content of
the nested assistant message of the JSON response. -/
theorem chat_request_shape (msgs : List Message) (mdl srv : String) (resp : HttpResponse) :
    (chat msgs mdl srv resp).request =
      ⟨"POST", srv ++ "/api/chat", ⟨mdl, msgs, false, ⟨8192, (95 : ℚ) / 100⟩⟩⟩ ∧
    (resp.status < 400 →
      (chat msgs mdl srv resp).result = Except.ok resp.body.message.content) := by
  constructor
  · by_cases h : 400 ≤ resp.status <;> simp [chat, h]
  · intro h
    simp [chat, Nat.not_le.mpr h]

/-- Witness for C8 at a concrete request. -/
theorem chat_request_shape_witness :
    (chat messages model server ⟨200, ⟨⟨"assistant", "hi"⟩⟩⟩).request =
      ⟨"POST", server ++ "/api/chat", ⟨model, messages, false, ⟨8192, (95 : ℚ) / 100⟩⟩⟩ ∧
    (chat messages model server ⟨200, ⟨⟨"assistant", "hi"⟩⟩⟩).result = Except.ok "hi" :=
  ⟨(chat_request_shape messages model server ⟨200, ⟨⟨"assistant", "hi"⟩⟩⟩).1,
   (chat_request_shape messages model server ⟨200, ⟨⟨"assistant", "hi"⟩⟩⟩).2 (by decide)⟩

/-! ### Claim C10: a successful `chat` appends exactly one assistant record -/

/-- Claim C10: on a success status, `chat` changes the `messages` list only
by appending a single record at the end, of role `assistant` and content
equal to `chat`'s return value; every previously existing record and their
order are untouched (the old list is literally the prefix), and the model of
`chat` is a pure function of its inputs, touching no other state. -/
theorem chat_appends_one (msgs : List Message) (mdl srv : String) (resp : HttpResponse)
    (h : resp.status < 400) :
    (chat msgs mdl srv resp).result = Except.ok resp.body.message.content ∧
    (chat msgs mdl srv resp).messages =
      msgs ++ [⟨"assistant", resp.body.message.content⟩] := by
  constructor <;> simp [chat, Nat.not_le.mpr h]

/-- Witness for C10 at a concrete successful response. -/
theorem chat_appends_one_witness :
    (200 : Nat) < 400 ∧
    ((chat messages model server ⟨200, ⟨⟨"assistant", "hi"⟩⟩⟩).result = Except.ok "hi" ∧
     (chat messages model server ⟨200, ⟨⟨"assistant", "hi"⟩⟩⟩).messages =
       messages ++ [⟨"assistant", "hi"⟩]) :=
  ⟨by decide, chat_appends_one messages model server ⟨200, ⟨⟨"assistant", "hi"⟩⟩⟩ (by decide)⟩

/-! ### Claim C5: the transcript is append-only and sent in full -/

/-- `requestTranscripts` distributes over concatenation of traces. -/
theorem requestTranscripts_append (a b : List Event) :
    requestTranscripts (a ++ b) = requestTranscripts a ++ requestTranscripts b := by
  simp [requestTranscripts, List.filterMap_append]

/-- Sandbox run events contribute no chat request to a trace. -/
theorem requestTranscripts_runEvents (g : Nat → String × String) (calls : List String) (k : Nat) :
    requestTranscripts
      (mapIdxFrom (fun j c => Event.sandboxRun c (g j).1 (g j).2) k calls) = [] := by
  induction calls generalizing k with
  | nil => rfl
  | cons c cs ih => simpa [mapIdxFrom, requestTranscripts] using ih (k + 1)

/-- Claim C5: the conversation transcript is only ever appended to — each
later value of `messages` is an earlier value plus a suffix, no record is
changed or removed — and every chat request carries the entire transcript
accumulated so far in its `messages` field: the first request carries the
three initial messages, the second carries them plus the assistant reply and
the outputs message, and the final transcript extends that by one more
assistant record. -/
theorem transcript_append_only (env : Env) (h1 : env.status1 < 400) (h2 : env.status2 < 400) :
    ∃ a out b2 : Message,
      requestTranscripts (mainResult env).1 = [messages, messages ++ [a, out]] ∧
      (mainResult env).2 = (messages ++ [a, out]) ++ [b2] := by
  refine ⟨⟨"assistant", response1 env⟩, ⟨"user", joinedOutputs env⟩,
    ⟨"assistant", response2 env⟩, ?_, ?_⟩
  · rw [mainResult_ok env h1 h2, requestTranscripts_append, requestTranscripts_append,
      runCalls_eq, requestTranscripts_runEvents]
    simp [requestTranscripts]
  · rw [mainResult_ok env h1 h2]
    simp

/-- Witness for C5 at the concrete environment `envOk`. -/
theorem transcript_append_only_witness :
    envOk.status1 < 400 ∧ envOk.status2 < 400 ∧
    (∃ a out b2 : Message,
      requestTranscripts (mainResult envOk).1 = [messages, messages ++ [a, out]] ∧
      (mainResult envOk).2 = (messages ++ [a, out]) ++ [b2]) :=
  ⟨by decide, by decide, transcript_append_only envOk (by decide) (by decide)⟩

/-! ### Claim C7: roles come from the fixed set -/

/-- Claim C7: every record ever placed in the transcript has role `"user"`
or `"assistant"` — on every path, including failed chats — and on a
successful run the roles are exactly `user, user, user` (the initial
messages), `assistant` (the reply), `user` (the outputs message),
`assistant` (the final reply); `chat` appends only `"assistant"` records and
the script itself only `"user"` records. -/
theorem roles_fixed (env : Env) :
    (∀ m ∈ (mainResult env).2, m.role = "user" ∨ m.role = "assistant") ∧
    (env.status1 < 400 → env.status2 < 400 →
      (mainResult env).2.map Message.role =
        ["user", "user", "user", "assistant", "user", "assistant"]) := by
  constructor
  · intro m hm
    by_cases h1 : env.status1 < 400
    · by_cases h2 : env.status2 < 400
      · rw [mainResult_ok env h1 h2] at hm
        simp [messages] at hm
        rcases hm with rfl | rfl | rfl | rfl | rfl | rfl <;> simp
      · rw [mainResult_err2 env h1 (Nat.not_lt.mp h2)] at hm
        simp [messages] at hm
        rcases hm with rfl | rfl | rfl | rfl | rfl <;> simp
    · rw [mainResult_err1 env (Nat.not_lt.mp h1)] at hm
      simp [messages] at hm
      rcases hm with rfl | rfl | rfl <;> simp
  · intro h1 h2
    rw [mainResult_ok env h1 h2]
    simp [messages]

/-- Witness for C7 at the concrete environment `envOk`. -/
theorem roles_fixed_witness :
    envOk.status1 < 400 ∧ envOk.status2 < 400 ∧
    (mainResult envOk).2.map Message.role =
      ["user", "user", "user", "assistant", "user", "assistant"] :=
  ⟨by decide, by decide, (roles_fixed envOk).2 (by decide) (by decide)⟩

/-! ### Claim C6 (corrected): message contents can be empty -/

/-- Counterexample to claim C6: when the first model response contains no
fenced code block (here, the response `"hello"` of `env6`), `function_calls`
is empty, `"\n\n".join([])` is the empty string, and the script appends a
user message with empty content — so not every message placed in the
transcript has non-empty content. -/
theorem every_message_nonempty_cex :
    ¬ (∀ m ∈ (mainResult env6).2, m.content ≠ "") := by decide

/-- Claim C6 as amended: the three initial messages always have non-empty
content, and every message of the final transcript has non-empty content
provided the two model responses are non-empty and the joined sandbox
outputs string is non-empty (which fails exactly in cases like the
counterexample, where no python block is extracted). -/
theorem message_contents_amended (env : Env) (h1 : env.status1 < 400)
    (h2 : env.status2 < 400) (hr1 : response1 env ≠ "") (hr2 : response2 env ≠ "")
    (hout : joinedOutputs env ≠ "") :
    ∀ m ∈ (mainResult env).2, m.content ≠ "" := by
  rw [mainResult_ok env h1 h2]
  intro m hm
  simp [messages] at hm
  rcases hm with rfl | rfl | rfl | rfl | rfl | rfl
  · decide
  · decide
  · decide
  · exact hr1
  · exact hout
  · exact hr2

/-- Witness for the amended C6 at `envOk`, instantiated at the final
assistant message of that run. -/
theorem message_contents_amended_witness :
    envOk.status1 < 400 ∧ joinedOutputs envOk ≠ "" ∧
    (Message.mk "assistant" "done").content ≠ "" :=
  ⟨by decide, by decide,
   message_contents_amended envOk (by decide) (by decide) (by decide) (by decide)
     (by decide) ⟨"assistant", "done"⟩ (by decide)⟩

/-! ### Claim C9: only blocks tagged exactly `python` are executed -/

/-- Folding the filter loop equals filtering then mapping. -/
theorem foldl_collect (p : Block → Bool) (f : Block → String) (l : List Block)
    (acc : List String) :
    List.foldl (fun acc b => if p b then acc ++ [f b] else acc) acc l
      = acc ++ (l.filter p).map f := by
  induction l generalizing acc with
  | nil => simp
  | cons b bs ih => by_cases h : p b <;> simp [h, ih]

/-- `runCodes` distributes over concatenation of traces. -/
theorem runCodes_append (a b : List Event) :
    runCodes (a ++ b) = runCodes a ++ runCodes b := by
  simp [runCodes, List.filterMap_append]

/-- The codes executed by the run loop are exactly the extracted calls. -/
theorem runCodes_runCalls (env : Env) (calls : List String) (k : Nat) :
    runCodes (runCalls env calls k).1 = calls := by
  induction calls generalizing k with
  | nil => rfl
  | cons c cs ih => simpa [runCalls, runCodes] using ih (k + 1)

/-- Claim C9: the collected function calls are exactly the contents of the
fenced blocks whose `code_class` capture equals the string `"python"` — the
comparison is string equality, so a differently-cased tag, another tag, or a
missing tag (`None`) is never collected — and whenever the first chat
succeeds, the codes run in the sandbox are exactly `function_code` followed
by those collected calls, in order. -/
theorem python_blocks_only :
    (∀ s : String,
      functionCalls s =
        ((findCodeBlocks s).filter (fun b => b.cls == some "python")).map Block.content) ∧
    (∀ env : Env, env.status1 < 400 →
      runCodes (mainResult env).1 = function_code :: functionCalls (response1 env)) := by
  constructor
  · intro s
    unfold functionCalls
    rw [foldl_collect]
    simp
  · intro env h1
    by_cases h2 : env.status2 < 400
    · rw [mainResult_ok env h1 h2, runCodes_append, runCodes_append, runCodes_runCalls]
      simp [runCodes]
    · rw [mainResult_err2 env h1 (Nat.not_lt.mp h2), runCodes_append, runCodes_append,
        runCodes_runCalls]
      simp [runCodes]

/-- Witness for C9: a response holding a `PYTHON`-tagged and a
`python`-tagged block, and the concrete environment `envOk`. -/
theorem python_blocks_only_witness :
    functionCalls "```PYTHON\na\n```\n```python\nb\n```" =
      ((findCodeBlocks "```PYTHON\na\n```\n```python\nb\n```").filter
        (fun b => b.cls == some "python")).map Block.content ∧
    envOk.status1 < 400 ∧
    runCodes (mainResult envOk).1 = function_code :: functionCalls (response1 envOk) :=
  ⟨python_blocks_only.1 _, by decide, python_blocks_only.2 envOk (by decide)⟩

/-! ### Claim C2: structure of the extracted blocks

Inversion lemmas for the matcher, leading to a soundness theorem: every
extracted body sits between an opening fence and an identical closing run.
-/

/-- Success of ordered choice comes from a successful candidate. -/
theorem pick_eq_some {α β : Type} {f : α → Option β} {l : List α} {b : β}
    (h : pick f l = some b) : ∃ a ∈ l, f a = some b := by
  induction l with
  | nil => simp [pick] at h
  | cons a as ih =>
    rw [pick] at h
    cases hfa : f a with
    | some b2 =>
      rw [hfa] at h
      simp only [] at h
      exact ⟨a, by simp, by rw [hfa]; exact h⟩
    | none =>
      rw [hfa] at h
      obtain ⟨x, hx, hfx⟩ := ih h
      exact ⟨x, by simp [hx], hfx⟩

/-- A successful prefix test is an actual decomposition. -/
theorem begins_eq_append {p l : List Char} (h : begins p l = true) :
    ∃ t, l = p ++ t := by
  induction p generalizing l with
  | nil => exact ⟨l, rfl⟩
  | cons c cs ih =>
    cases l with
    | nil => simp [begins] at h
    | cons d ds =>
      simp only [begins, Bool.and_eq_true, beq_iff_eq] at h
      obtain ⟨rfl, h2⟩ := h
      obtain ⟨t, rfl⟩ := ih h2
      exact ⟨t, rfl⟩

/-- Candidates of a greedy `+` quantifier lie between 1 and the run length. -/
theorem descRange_bounds {n x : Nat} (h : x ∈ descRange n) : 1 ≤ x ∧ x ≤ n := by
  simp only [descRange, List.mem_map, List.mem_range] at h
  obtain ⟨k, hk, rfl⟩ := h
  omega

/-- Taking at most the run length of `c` yields a replica of `c`. -/
theorem runC_take {c : Char} {l : List Char} {n : Nat} (h : n ≤ runC c l) :
    List.take n l = List.replicate n c := by
  induction l generalizing n with
  | nil =>
    simp only [runC, runP] at h
    have : n = 0 := Nat.le_zero.mp h
    simp [this]
  | cons d ds ih =>
    cases n with
    | zero => simp
    | succ m =>
      simp only [runC, runP] at h
      by_cases hd : d == c
      · rw [if_pos hd] at h
        have hdc : d = c := by simpa using hd
        subst hdc
        have hm : m ≤ runC d ds := by
          simpa [runC] using Nat.le_of_succ_le_succ h
        simp [List.replicate, ih hm]
      · rw [if_neg hd] at h
        omega

/-- A successful tail candidate decomposes the remaining input: the content
is the chosen slice, and the closing fence follows, with nothing, or a
newline, after it. -/
theorem checkCand_eq_some {t fence : List Char} {n1 c n2 : Nat} {tr : TailRes}
    (h : checkCand t fence n1 c n2 = some tr) :
    tr.content = List.take c (List.drop n1 t) ∧
    ∃ post, List.drop (n1 + c + n2) t = fence ++ post ∧
      (post = [] ∨ ∃ post2, post = '\n' :: post2) := by
  rw [checkCand] at h
  by_cases hb : begins fence (List.drop (n1 + c + n2) t)
  · rw [if_pos hb] at h
    obtain ⟨post, hp⟩ := begins_eq_append hb
    rw [hp, List.drop_left] at h
    cases post with
    | nil =>
      simp only [Option.some.injEq] at h
      subst h
      exact ⟨rfl, [], hp, Or.inl rfl⟩
    | cons ch rest2 =>
      simp only [] at h
      by_cases h1 : ch == '\x60'
      · rw [if_pos h1] at h
        cases h
      · rw [if_neg h1] at h
        by_cases h2 : ch == '\n'
        · rw [if_pos h2] at h
          simp only [Option.some.injEq] at h
          subst h
          have hch : ch = '\n' := by simpa using h2
          subst hch
          exact ⟨rfl, '\n' :: rest2, hp, Or.inr ⟨rest2, rfl⟩⟩
        · rw [if_neg h2] at h
          cases h
  · rw [if_neg hb] at h
    cases h

/-- Auxiliary: split a list at `n`, then at `m` more. -/
theorem split_twice (l : List Char) (n m : Nat) :
    l = List.take n l ++ List.take m (List.drop n l) ++ List.drop (n + m) l := by
  conv_lhs => rw [← List.take_append_drop n l]
  rw [List.append_assoc]
  congr 1
  conv_lhs => rw [← List.take_append_drop m (List.drop n l)]
  rw [List.drop_drop]

/-- A successful tail search decomposes the remaining input into the two
newline runs, the captured content, the closing fence and the tail. -/
theorem tailSearch_decomp {t fence : List Char} {tr : TailRes}
    (h : tailSearch t fence = some tr) :
    ∃ (n1 n2 : Nat) (post : List Char), 1 ≤ n1 ∧ 1 ≤ n2 ∧
      t = List.replicate n1 '\n' ++ tr.content ++ List.replicate n2 '\n'
        ++ fence ++ post ∧
      (post = [] ∨ ∃ post2, post = '\n' :: post2) := by
  rw [tailSearch] at h
  obtain ⟨n1, hn1m, h⟩ := pick_eq_some h
  obtain ⟨c, _, h⟩ := pick_eq_some h
  obtain ⟨n2, hn2m, h⟩ := pick_eq_some h
  obtain ⟨hn1a, hn1b⟩ := descRange_bounds hn1m
  obtain ⟨hn2a, hn2b⟩ := descRange_bounds hn2m
  obtain ⟨hcontent, post, hpost, hpc⟩ := checkCand_eq_some h
  refine ⟨n1, n2, post, hn1a, hn2a, ?_, hpc⟩
  have base : t = List.take n1 t ++ List.take c (List.drop n1 t)
      ++ List.drop (n1 + c) t := split_twice t n1 c
  have mid : List.drop (n1 + c) t = List.take n2 (List.drop (n1 + c) t)
      ++ List.drop (n1 + c + n2) t := by
    conv_lhs => rw [← List.take_append_drop n2 (List.drop (n1 + c) t)]
    rw [List.drop_drop]
  rw [runC_take hn1b] at base
  rw [runC_take hn2b, hpost] at mid
  rw [← hcontent] at base
  conv_lhs => rw [base]
  rw [mid]
  simp [List.append_assoc]

/-- A successful match attempt at position `i` decomposes the subject: the
extracted content sits between an opening fence (at most three blanks and at
least three backticks), an info segment, and a closing copy of the very same
fence run, separated by non-empty newline runs, with the close followed by a
newline or the end of the input. -/
theorem matchAt_sound {s : List Char} {i : Nat} {mr : MatchRes}
    (h : matchAt s i = some mr) :
    ∃ (pre info post : List Char) (nSp nTicks n1 n2 : Nat),
      nSp ≤ 3 ∧ 3 ≤ nTicks ∧ 1 ≤ n1 ∧ 1 ≤ n2 ∧
      s = pre ++ List.replicate nSp ' ' ++ List.replicate nTicks '\x60' ++ info
        ++ List.replicate n1 '\n' ++ mr.block.content.data ++ List.replicate n2 '\n'
        ++ List.replicate nSp ' ' ++ List.replicate nTicks '\x60' ++ post ∧
      (post = [] ∨ ∃ post2, post = '\n' :: post2) := by
  simp only [matchAt] at h
  set t0 := List.drop i s with ht0
  set nPre := runC '\n' t0 with hnPre
  set t1 := List.drop nPre t0 with ht1
  set nSp := runC ' ' t1 with hnSp
  set t2 := List.drop nSp t1 with ht2
  set nTicks := runC '\x60' t2 with htkdef
  set t3 := List.drop nTicks t2 with ht3
  set infoP := parseInfo t3 with hinfoP
  set t4 := List.drop infoP.2 t3 with ht4
  set fence := List.replicate nSp ' ' ++ List.replicate nTicks '\x60' with hfence
  split at h
  · cases h
  · rename_i hsp
    split at h
    · cases h
    · rename_i htk
      split at h
      · cases h
      · rename_i tr heq
        simp only [Option.some.injEq] at h
        subst h
        obtain ⟨n1, n2, post, h1, h2, ht4eq, hpc⟩ := tailSearch_decomp heq
        refine ⟨List.take i s ++ List.replicate nPre '\n', List.take infoP.2 t3, post,
          nSp, nTicks, n1, n2, by omega, by omega, h1, h2, ?_, hpc⟩
        have hs : s = List.take i s ++ t0 := by
          rw [ht0]
          exact (List.take_append_drop i s).symm
        have h01 : t0 = List.replicate nPre '\n' ++ t1 := by
          rw [ht1]
          conv_lhs => rw [← List.take_append_drop nPre t0]
          rw [runC_take (le_of_eq hnPre.symm)]
        have h12 : t1 = List.replicate nSp ' ' ++ t2 := by
          rw [ht2]
          conv_lhs => rw [← List.take_append_drop nSp t1]
          rw [runC_take (le_of_eq hnSp.symm)]
        have h23 : t2 = List.replicate nTicks '\x60' ++ t3 := by
          rw [ht3]
          conv_lhs => rw [← List.take_append_drop nTicks t2]
          rw [runC_take (le_of_eq htkdef.symm)]
        have h34 : t3 = List.take infoP.2 t3 ++ t4 := by
          rw [ht4]
          exact (List.take_append_drop infoP.2 t3).symm
        rw [hfence] at ht4eq
        calc s = List.take i s ++ t0 := hs
          _ = List.take i s ++ (List.replicate nPre '\n' ++ t1) := by rw [← h01]
          _ = List.take i s ++ (List.replicate nPre '\n'
              ++ (List.replicate nSp ' ' ++ t2)) := by rw [← h12]
          _ = List.take i s ++ (List.replicate nPre '\n'
              ++ (List.replicate nSp ' ' ++ (List.replicate nTicks '\x60' ++ t3))) := by
            rw [← h23]
          _ = List.take i s ++ (List.replicate nPre '\n'
              ++ (List.replicate nSp ' ' ++ (List.replicate nTicks '\x60'
                ++ (List.take infoP.2 t3 ++ t4)))) := by rw [← h34]
          _ = List.take i s ++ (List.replicate nPre '\n'
              ++ (List.replicate nSp ' ' ++ (List.replicate nTicks '\x60'
                ++ (List.take infoP.2 t3
                  ++ (List.replicate n1 '\n' ++ tr.content ++ List.replicate n2 '\n'
                    ++ (List.replicate nSp ' ' ++ List.replicate nTicks '\x60')
                    ++ post))))) := by rw [← ht4eq]
          _ = (List.take i s ++ List.replicate nPre '\n') ++ List.replicate nSp ' '
              ++ List.replicate nTicks '\x60' ++ List.take infoP.2 t3
              ++ List.replicate n1 '\n'
              ++ (MatchRes.mk ⟨infoP.1, String.mk tr.content⟩
                  (i + nPre + nSp + nTicks + infoP.2 + tr.used)).block.content.data
              ++ List.replicate n2 '\n' ++ List.replicate nSp ' '
              ++ List.replicate nTicks '\x60' ++ post := by
            simp [List.append_assoc]

/-- Every block emitted by the scan comes from a successful match attempt. -/
theorem scanAux_mem {s : List Char} {fuel i : Nat} {b : Block}
    (h : b ∈ scanAux s fuel i) :
    ∃ j mr, matchAt s j = some mr ∧ mr.block = b := by
  induction fuel generalizing i with
  | zero => simp [scanAux] at h
  | succ n ih =>
    rw [scanAux] at h
    split at h
    · rename_i hle
      cases hm : matchAt s i with
      | some mr =>
        rw [hm] at h
        rcases List.mem_cons.mp h with hb | hrest
        · exact ⟨i, mr, hm, hb.symm⟩
        · exact ih hrest
      | none =>
        rw [hm] at h
        exact ih h
    · simp at h

/-- Counterexample to claim C2: the response `cex2` contains a fenced block
in the claim's own sense — an opening run of three backticks with tag
`python`, body `x`, closed by the same run — yet the extraction returns no
block at all, because the regex additionally requires the closing fence to
be followed by a newline or the end of the input, and here it is followed by
`" y"`.  So the extracted bodies are not exactly the bodies of the fenced
blocks present. -/
theorem extraction_exactness_cex :
    specFencedBlockPresent cex2 "python" "x" ∧
    "x" ∉ (findCodeBlocks cex2).map Block.content := by
  constructor
  · exact ⟨"", " y", 3, by decide, by decide⟩
  · decide

/-- Claim C2 as amended: the extraction matches runs of three or more
backticks (possibly indented by up to three blanks), captures an optional
language tag in the info segment after the opening fence, and extracts the
body between the fences; every extracted body does come from a fenced block
of the string — between an opening fence and a closing copy of the very same
run, each on its own line side (non-empty newline runs around the body), the
close followed by a newline or the end of input — but not every such fenced
block is extracted (see the counterexample), so "exactly" holds only in the
soundness direction. -/
theorem findCodeBlocks_sound (s : String) (b : Block)
    (hb : b ∈ findCodeBlocks s) :
    ∃ (pre info post : List Char) (nSp nTicks n1 n2 : Nat),
      nSp ≤ 3 ∧ 3 ≤ nTicks ∧ 1 ≤ n1 ∧ 1 ≤ n2 ∧
      s.data = pre ++ List.replicate nSp ' ' ++ List.replicate nTicks '\x60' ++ info
        ++ List.replicate n1 '\n' ++ b.content.data ++ List.replicate n2 '\n'
        ++ List.replicate nSp ' ' ++ List.replicate nTicks '\x60' ++ post ∧
      (post = [] ∨ ∃ post2, post = '\n' :: post2) := by
  obtain ⟨j, mr, hm, hmb⟩ := scanAux_mem hb
  subst hmb
  exact matchAt_sound hm

/-- Witness for the amended C2: the block extracted from a concrete fenced
response decomposes as stated. -/
theorem findCodeBlocks_sound_witness :
    (Block.mk (some "python") "x") ∈ findCodeBlocks "```python\nx\n```" ∧
    (∃ (pre info post : List Char) (nSp nTicks n1 n2 : Nat),
      nSp ≤ 3 ∧ 3 ≤ nTicks ∧ 1 ≤ n1 ∧ 1 ≤ n2 ∧
      ("```python\nx\n```" : String).data
        = pre ++ List.replicate nSp ' ' ++ List.replicate nTicks '\x60' ++ info
          ++ List.replicate n1 '\n' ++ (Block.mk (some "python") "x").content.data
          ++ List.replicate n2 '\n'
          ++ List.replicate nSp ' ' ++ List.replicate nTicks '\x60' ++ post ∧
      (post = [] ∨ ∃ post2, post = '\n' :: post2)) :=
  ⟨by decide, findCodeBlocks_sound "```python\nx\n```" ⟨some "python", "x"⟩ (by decide)⟩

end HelloWorld
